import Mathlib

/-!
Shallow embedding of the HR admin system's server-side core:
the tRPC routers `employeeRouter` (src/server/api/routers/employee.ts) and
`departmentRouter` (src/server/api/routers/department.ts), together with the
storage model they run against (Prisma over SQLite).

Conventions of the embedding:
* Record ids (cuid strings in the source) are modelled as `Nat`.
* The database is a `State` of four tables (lists of rows).
* Prisma's `$transaction` is modelled as all-or-nothing: an operation wrapped
  in a transaction returns the original state on any error.  Operations whose
  writes are NOT wrapped in a transaction (notably `employee.update`) thread
  the state through each write, so an early write persists when a later one
  fails — exactly as in the source.
* Unique constraints are modelled from the Prisma schema as documented in the
  repository (schema file not present under src/): `Employee.emailAddress`,
  `User.email` and `Department.name` are unique.  A violated unique constraint
  surfaces as the `Conflict` error, matching `handlePrismaError` /
  the P2002 handlers in both routers.
* Foreign-key violations (Prisma P2003/P2025), which the routers re-throw as
  generic storage errors, are not modelled; no claim below depends on them.
-/

namespace HrAdmin

/-- Role of a `User`, mirroring the role strings used in the source. -/
inductive Role where
  | ADMIN
  | MANAGER
  | EMPLOYEE
deriving DecidableEq

/-- Status of an `Employee` or `Department` row. -/
inductive Status where
  | ACTIVE
  | INACTIVE
deriving DecidableEq

/-- Status filter accepted by the `getAll` queries: `ACTIVE`, `INACTIVE` or `ALL`. -/
inductive StatusFilter where
  | ACTIVE
  | INACTIVE
  | ALL
deriving DecidableEq

/-- An `Employee` row. `managerId` is the optional self-reference to the
employee's own manager. -/
structure Employee where
  id : Nat
  firstName : String
  lastName : String
  telephoneNumber : String
  emailAddress : String
  status : Status
  managerId : Option Nat
deriving DecidableEq

/-- A `Department` row. `managerId` is required (references an `Employee`). -/
structure Department where
  id : Nat
  name : String
  status : Status
  managerId : Nat
deriving DecidableEq

/-- A row of the Employee↔Department many-to-many membership table. -/
structure Membership where
  employeeId : Nat
  departmentId : Nat
deriving DecidableEq

/-- A `User` row (authentication identity). `employeeId` optionally links the
user to exactly one `Employee` (the seeded admin user has no link). -/
structure User where
  id : Nat
  email : String
  name : String
  role : Role
  employeeId : Option Nat
deriving DecidableEq

/-- The database state: the four tables. -/
structure State where
  employees : List Employee
  departments : List Department
  memberships : List Membership
  users : List User
deriving DecidableEq

/-- The caller identity resolved by the session layer (`session.user`):
an employee id and a role.  Every modelled operation is a
`protectedProcedure`, so a caller is always present. -/
structure Caller where
  employeeId : Nat
  role : Role
deriving DecidableEq

/-- Domain-level error kinds produced by the routers (TRPCError codes).
`StoreError` stands for a raw storage error re-thrown unmodified. -/
inductive Err where
  | Forbidden
  | NotFound
  | Conflict
  | StoreError
deriving DecidableEq

/-- Employee membership test for a department: `departments: { some: { departmentId } }`
in the source's Prisma query. -/
def inDepartment (s : State) (departmentId : Nat) (e : Employee) : Bool :=
  s.memberships.any (fun m => m.employeeId == e.id && m.departmentId == departmentId)

/-- Department-manager test: `managedDepartments: { some: { id: departmentId } }`
in the source's Prisma query. -/
def managesDepartment (s : State) (departmentId : Nat) (e : Employee) : Bool :=
  s.departments.any (fun d => d.id == departmentId && d.managerId == e.id)

/-- The two `OR` lists that `employee.getAll` can install in its where
conditions: the manager role scope `[{id: callerEmp}, {managerId: callerEmp}]`,
or the department filter `[{departments some}, {managedDepartments some}]`. -/
inductive OrCond where
  | roleScope (employeeId : Nat)
  | deptFilter (departmentId : Nat)
deriving DecidableEq

/-- Evaluation of an `OrCond` against an employee row. -/
def evalOrCond (s : State) (c : OrCond) (e : Employee) : Bool :=
  match c with
  | .roleScope employeeId => e.id == employeeId || e.managerId == some employeeId
  | .deptFilter departmentId => inDepartment s departmentId e || managesDepartment s departmentId e

/-- The `whereConditions` object built by `employee.getAll`.  Each field is
optional, mirroring the incrementally-assigned Prisma `EmployeeWhereInput`;
the single `OR` field mirrors the JS object's single `OR` key (so a later
spread `{...whereConditions, OR: [...]}` overwrites it). -/
structure EmployeeWhere where
  status : Option Status := none
  id : Option Nat := none
  managerId : Option Nat := none
  OR : Option OrCond := none
deriving DecidableEq

/-- Conjunction of the where conditions, as Prisma evaluates a where object. -/
def matchesWhere (s : State) (w : EmployeeWhere) (e : Employee) : Bool :=
  (match w.status with | none => true | some st => decide (e.status = st)) &&
  (match w.id with | none => true | some i => e.id == i) &&
  (match w.managerId with | none => true | some m => e.managerId == some m) &&
  (match w.OR with | none => true | some c => evalOrCond s c e)

/-- The status part of the where conditions: `ALL` adds no condition. -/
def statusFilterOpt : StatusFilter → Option Status
  | .ALL => none
  | .ACTIVE => some .ACTIVE
  | .INACTIVE => some .INACTIVE

/-- The `employee.getAll` query (employee.ts lines 31-121): builds
`whereConditions` from the status filter and the caller's role, then — when a
`departmentId` filter is present — issues the query
`{...whereConditions, OR: [departments some, managedDepartments some]}`,
whose spread overwrites any `OR` already in `whereConditions`. -/
def employeeGetAll (s : State) (caller : Caller) (status : StatusFilter)
    (managerId departmentId : Option Nat) : List Employee :=
  let base : EmployeeWhere := { status := statusFilterOpt status }
  let whereConditions : EmployeeWhere :=
    match caller.role with
    | .EMPLOYEE => { base with id := some caller.employeeId }
    | .MANAGER =>
      match managerId with
      | some m => { base with managerId := some m }
      | none => { base with OR := some (.roleScope caller.employeeId) }
    | .ADMIN =>
      match managerId with
      | some m => { base with managerId := some m }
      | none => base
  match departmentId with
  | some d => s.employees.filter (matchesWhere s { whereConditions with OR := some (.deptFilter d) })
  | none => s.employees.filter (matchesWhere s whereConditions)

/-- The `employee.getById` query (employee.ts lines 123-170): `NotFound` when
the id resolves to no row, `Forbidden` for an EMPLOYEE caller reading someone
else or a MANAGER caller reading neither themselves nor a direct report. -/
def employeeGetById (s : State) (caller : Caller) (id : Nat) : Except Err Employee :=
  match s.employees.find? (fun e => e.id == id) with
  | none => .error .NotFound
  | some employee =>
    if caller.role = .EMPLOYEE ∧ caller.employeeId ≠ employee.id then
      .error .Forbidden
    else if caller.role = .MANAGER ∧ caller.employeeId ≠ employee.id ∧
        some caller.employeeId ≠ employee.managerId then
      .error .Forbidden
    else
      .ok employee

/-- The `department.getById` query (department.ts lines 80-104): `NotFound`
when absent, otherwise the row is returned; the handler performs no
role-based check. -/
def departmentGetById (s : State) (_caller : Caller) (id : Nat) : Except Err Department :=
  match s.departments.find? (fun d => d.id == id) with
  | none => .error .NotFound
  | some department => .ok department

/-- The visibility predicate for employee rows, as the spec's §4.1 states it
and as `employee.getAll` installs it when no explicit filter is supplied. -/
def employeeInScope (caller : Caller) (e : Employee) : Bool :=
  match caller.role with
  | .ADMIN => true
  | .MANAGER => e.id == caller.employeeId || e.managerId == some caller.employeeId
  | .EMPLOYEE => e.id == caller.employeeId

/-- The visibility predicate for department rows, as the spec's §4.1 states it
and as `department.getAll` installs it. -/
def departmentInScope (s : State) (caller : Caller) (d : Department) : Bool :=
  match caller.role with
  | .ADMIN => true
  | .MANAGER =>
      d.managerId == caller.employeeId ||
      s.memberships.any (fun m => m.departmentId == d.id && m.employeeId == caller.employeeId)
  | .EMPLOYEE =>
      s.memberships.any (fun m => m.departmentId == d.id && m.employeeId == caller.employeeId)

/-- Status filter as a Bool predicate (for characterisation statements). -/
def statusMatches (st : StatusFilter) (e : Employee) : Bool :=
  match st with
  | .ALL => true
  | .ACTIVE => decide (e.status = .ACTIVE)
  | .INACTIVE => decide (e.status = .INACTIVE)

/-- Fresh id for a new employee row (the source uses cuid generation; only
freshness matters here). -/
def freshEmployeeId (s : State) : Nat :=
  (s.employees.map (·.id)).foldr max 0 + 1

/-- Fresh id for a new user row. -/
def freshUserId (s : State) : Nat :=
  (s.users.map (·.id)).foldr max 0 + 1

/-- Fresh id for a new department row. -/
def freshDepartmentId (s : State) : Nat :=
  (s.departments.map (·.id)).foldr max 0 + 1

/-- Prisma `user.update({where: {id}, data: {role}})`. -/
def setUserRole (s : State) (userId : Nat) (r : Role) : State :=
  { s with users := s.users.map (fun u => if u.id == userId then { u with role := r } else u) }

/-- Input of `employee.create` after zod validation (the `status` default
`ACTIVE` has already been applied by the schema). -/
structure EmployeeCreateInput where
  firstName : String
  lastName : String
  telephoneNumber : String
  emailAddress : String
  managerId : Option Nat
  status : Status
deriving DecidableEq

/-- Input of `employee.update` after zod validation.  `managerId` is
`string | undefined` in the source and the handler distinguishes
`undefined` (field untouched) from a falsy string (disconnect) from a
non-empty string (connect): modelled as `none` / `some none` / `some (some m)`. -/
structure EmployeeUpdateInput where
  id : Nat
  firstName : String
  lastName : String
  telephoneNumber : String
  emailAddress : String
  managerId : Option (Option Nat)
  status : Option Status
deriving DecidableEq

/-- Input of `department.create` after zod validation. -/
structure DepartmentCreateInput where
  name : String
  managerId : Nat
  status : Status
deriving DecidableEq

/-- Input of `department.update` after zod validation. -/
structure DepartmentUpdateInput where
  id : Nat
  name : String
  managerId : Nat
  status : Option Status
deriving DecidableEq

/-- The `employee.create` mutation (employee.ts lines 172-220): no caller-role
gate; inside one `$transaction`, insert the Employee row, then insert the
paired User row with role `EMPLOYEE`.  A unique-constraint violation on
`Employee.emailAddress` or `User.email` aborts the transaction (`Conflict`,
state rolled back). -/
def employeeCreate (s : State) (_caller : Caller) (input : EmployeeCreateInput) :
    Except Err Employee × State :=
  if s.employees.any (fun e => e.emailAddress == input.emailAddress) then
    (.error .Conflict, s)
  else
    let employee : Employee :=
      { id := freshEmployeeId s
        firstName := input.firstName
        lastName := input.lastName
        telephoneNumber := input.telephoneNumber
        emailAddress := input.emailAddress
        status := input.status
        managerId := input.managerId }
    if s.users.any (fun u => u.email == input.emailAddress) then
      (.error .Conflict, s)
    else
      (.ok employee,
        { s with
            employees := s.employees ++ [employee]
            users := s.users ++
              [{ id := freshUserId s
                 email := input.emailAddress
                 name := input.firstName ++ " " ++ input.lastName
                 role := .EMPLOYEE
                 employeeId := some employee.id }] })

/-- The `employee.update` mutation (employee.ts lines 222-303): fetch target
(`NotFound` if absent), authorize (ADMIN, self, or MANAGER of the target),
apply the four basic fields — `managerId`/`status` only when the caller is
ADMIN — then mirror email/name onto the linked User.  The two writes are NOT
wrapped in a transaction in the source, so the Employee-row write persists
even when the User mirror write fails. -/
def employeeUpdate (s : State) (caller : Caller) (input : EmployeeUpdateInput) :
    Except Err Employee × State :=
  match s.employees.find? (fun e => e.id == input.id) with
  | none => (.error .NotFound, s)
  | some employee =>
    let isAuthorized :=
      decide (caller.role = .ADMIN) ||
      caller.employeeId == input.id ||
      (decide (caller.role = .MANAGER) && some caller.employeeId == employee.managerId)
    if !isAuthorized then
      (.error .Forbidden, s)
    else if s.employees.any (fun e => e.id != input.id && e.emailAddress == input.emailAddress) then
      (.error .Conflict, s)
    else
      let updatedEmployee : Employee :=
        { employee with
            firstName := input.firstName
            lastName := input.lastName
            telephoneNumber := input.telephoneNumber
            emailAddress := input.emailAddress
            managerId :=
              if caller.role = .ADMIN then input.managerId.getD employee.managerId
              else employee.managerId
            status :=
              if caller.role = .ADMIN then input.status.getD employee.status
              else employee.status }
      let s1 : State :=
        { s with employees := s.employees.map (fun e => if e.id == input.id then updatedEmployee else e) }
      match s.users.find? (fun u => u.employeeId == some input.id) with
      | none => (.ok updatedEmployee, s1)
      | some user =>
        if s1.users.any (fun u => u.id != user.id && u.email == input.emailAddress) then
          (.error .Conflict, s1)
        else
          (.ok updatedEmployee,
            { s1 with
                users := s1.users.map (fun u =>
                  if u.id == user.id then
                    { u with email := input.emailAddress
                             name := input.firstName ++ " " ++ input.lastName }
                  else u) })

/-- The `employee.toggleStatus` mutation (employee.ts lines 305-327): ADMIN
only; a missing target makes the raw `update` fail (re-thrown unmodified,
modelled as `StoreError`). -/
def employeeToggleStatus (s : State) (caller : Caller) (id : Nat) (status : Status) :
    Except Err Employee × State :=
  if caller.role ≠ .ADMIN then
    (.error .Forbidden, s)
  else
    match s.employees.find? (fun e => e.id == id) with
    | none => (.error .StoreError, s)
    | some employee =>
      let updated := { employee with status := status }
      (.ok updated,
        { s with employees := s.employees.map (fun e => if e.id == id then updated else e) })

/-- The promotion block shared by `department.create` (lines 148-157) and
`department.update` (lines 242-251): find the User linked to the (new)
manager; if that user currently has role `EMPLOYEE`, set it to `MANAGER`. -/
def promoteIfEmployee (s : State) (managerId : Nat) : State :=
  match s.users.find? (fun u => u.employeeId == some managerId) with
  | some userToUpdate =>
    if userToUpdate.role = .EMPLOYEE then
      setUserRole s userToUpdate.id .MANAGER
    else s
  | none => s

/-- The demotion block of `department.update` (lines 253-274): if the old
manager no longer manages any department other than the one just updated and
has no direct subordinate — both read from the current (post-update) state —
and their linked User currently has role `MANAGER`, set it to `EMPLOYEE`. -/
def demoteOldManagerIfIdle (s : State) (oldManagerId : Nat) (deptId : Nat) : State :=
  let stillManaging := s.departments.any (fun d => d.managerId == oldManagerId && d.id != deptId)
  let hasSubordinates := s.employees.any (fun e => e.managerId == some oldManagerId)
  if !stillManaging && !hasSubordinates then
    match s.users.find? (fun u => u.employeeId == some oldManagerId) with
    | some prevManagerUser =>
      if prevManagerUser.role = .MANAGER then
        setUserRole s prevManagerUser.id .EMPLOYEE
      else s
    | none => s
  else s

/-- The `department.create` mutation (department.ts lines 119-172): ADMIN
only; inside one `$transaction`, insert the Department row, then promote the
User linked to the new manager from `EMPLOYEE` to `MANAGER` when applicable.
`Conflict` on a duplicate department name. -/
def departmentCreate (s : State) (caller : Caller) (input : DepartmentCreateInput) :
    Except Err Department × State :=
  if caller.role ≠ .ADMIN then
    (.error .Forbidden, s)
  else if s.departments.any (fun d => d.name == input.name) then
    (.error .Conflict, s)
  else
    let department : Department :=
      { id := freshDepartmentId s
        name := input.name
        status := input.status
        managerId := input.managerId }
    let s1 : State := { s with departments := s.departments ++ [department] }
    (.ok department, promoteIfEmployee s1 input.managerId)

/-- The `department.update` mutation (department.ts lines 190-290): ADMIN
only; inside one `$transaction`, fetch the current row (`NotFound` if
absent), write name/manager/status, and — when the manager changed — promote
the new manager's User and then conditionally demote the previous manager's
User, both reads running against the post-update state.  `Conflict` on a
duplicate name. -/
def departmentUpdate (s : State) (caller : Caller) (input : DepartmentUpdateInput) :
    Except Err Department × State :=
  if caller.role ≠ .ADMIN then
    (.error .Forbidden, s)
  else
    match s.departments.find? (fun d => d.id == input.id) with
    | none => (.error .NotFound, s)
    | some currentDept =>
      if s.departments.any (fun d => d.id != input.id && d.name == input.name) then
        (.error .Conflict, s)
      else
        let department : Department :=
          { currentDept with
              name := input.name
              managerId := input.managerId
              status := input.status.getD currentDept.status }
        let s1 : State :=
          { s with departments := s.departments.map (fun d => if d.id == input.id then department else d) }
        if currentDept.managerId ≠ input.managerId then
          (.ok department,
            demoteOldManagerIfIdle (promoteIfEmployee s1 input.managerId)
              currentDept.managerId input.id)
        else
          (.ok department, s1)

/-- The `department.toggleStatus` mutation (department.ts lines 302-323):
ADMIN only; a missing target makes the raw `update` fail (re-thrown
unmodified, modelled as `StoreError`). -/
def departmentToggleStatus (s : State) (caller : Caller) (id : Nat) (status : Status) :
    Except Err Department × State :=
  if caller.role ≠ .ADMIN then
    (.error .Forbidden, s)
  else
    match s.departments.find? (fun d => d.id == id) with
    | none => (.error .StoreError, s)
    | some department =>
      let updated := { department with status := status }
      (.ok updated,
        { s with departments := s.departments.map (fun d => if d.id == id then updated else d) })

/-- Role of the user with the given id, looked up in a state. -/
def userRoleById (s : State) (userId : Nat) : Option Role :=
  (s.users.find? (fun u => u.id == userId)).map (·.role)

/-- Does `m` still manage some department other than `deptId` in state `s`
(the `stillManaging` query of `department.update`)? -/
def stillManagingAfter (s : State) (m : Nat) (deptId : Nat) : Bool :=
  s.departments.any (fun d => d.managerId == m && d.id != deptId)

/-- Does `m` have a direct subordinate in state `s` (the `hasSubordinates`
query of `department.update`)? -/
def hasSubordinatesIn (s : State) (m : Nat) : Bool :=
  s.employees.any (fun e => e.managerId == some m)

/-- The ADMIN rows of a user table are exactly preserved (by id) between two
tables: every pre-state ADMIN is still an ADMIN, and no post-state ADMIN is
new. -/
def adminsPreserved (l l' : List User) : Prop :=
  (∀ u ∈ l, u.role = .ADMIN → ∃ u' ∈ l', u'.id = u.id ∧ u'.role = .ADMIN) ∧
  (∀ u' ∈ l', u'.role = .ADMIN → ∃ u ∈ l, u.id = u'.id ∧ u.role = .ADMIN)

/-- A concrete company used as test data: Alice (1, no manager), Bob (2,
managed by Carol), Carol (3); department Engineering (10) managed by Carol,
with Bob as its only member. -/
def empA : Employee := ⟨1, "Alice", "Smith", "111", "alice@example.com", .ACTIVE, none⟩

/-- Bob, employee 2, managed by Carol (3). -/
def empB : Employee := ⟨2, "Bob", "Jones", "222", "bob@example.com", .ACTIVE, some 3⟩

/-- Carol, employee 3, manager of Bob and of Engineering. -/
def empC : Employee := ⟨3, "Carol", "Diaz", "333", "carol@example.com", .ACTIVE, none⟩

/-- The Engineering department (10), managed by Carol (3). -/
def deptEng : Department := ⟨10, "Engineering", .ACTIVE, 3⟩

/-- User account of Alice (Manager role), linked to employee 1. -/
def userA : User := ⟨100, "alice@example.com", "Alice Smith", .MANAGER, some 1⟩

/-- User account of Bob (Employee role), linked to employee 2. -/
def userB : User := ⟨101, "bob@example.com", "Bob Jones", .EMPLOYEE, some 2⟩

/-- Test database: the three employees, Engineering, Bob's membership, and the
two user accounts. -/
def stateOne : State :=
  { employees := [empA, empB, empC], departments := [deptEng],
    memberships := [⟨2, 10⟩], users := [userA, userB] }

/-- A seeded admin user account not linked to any employee, whose email
collides with the address used in the `employee.update` scenario below. -/
def userX : User := ⟨102, "new@example.com", "Seed Admin", .ADMIN, none⟩

/-- Test database for the `employee.update` partial-persistence scenario:
Alice with her user account, plus the unlinked seeded admin `userX`. -/
def stateTwo : State :=
  { employees := [empA], departments := [], memberships := [], users := [userA, userX] }

/-- The `employee.update` request renaming Alice's email to the address
already taken by `userX`. -/
def updInputC6 : EmployeeUpdateInput :=
  ⟨1, "Alice", "Smith", "111", "new@example.com", none, none⟩

/-- The Ops department (20), managed by Alice (1). -/
def deptOps : Department := ⟨20, "Ops", .ACTIVE, 1⟩

/-- Test database for the manager-reassignment scenario: Alice manages Ops
(user 100 is a MANAGER), Bob is an EMPLOYEE, nobody reports to Alice. -/
def stateFour : State :=
  { employees := [empA, empB], departments := [deptOps], memberships := [],
    users := [userA, userB] }

/-- The `department.update` request reassigning Ops from Alice (1) to Bob (2). -/
def updInputC4 : DepartmentUpdateInput := ⟨20, "Ops", 2, none⟩

end HrAdmin

deriving instance DecidableEq for Except

namespace HrAdmin

/-- The status part of the built where conditions agrees with `statusMatches`. -/
theorem statusMatch_eq (st : StatusFilter) (e : Employee) :
    (match statusFilterOpt st with
     | none => true
     | some stv => decide (e.status = stv)) = statusMatches st e := by
  cases st <;> rfl

/-- Claim C1 is false on the code: a MANAGER caller (employee 1) who supplies
the explicit filter `managerId = 3` receives Bob (id 2, managed by 3), a
record outside the caller's visibility scope — the filter replaces the
manager's scope instead of narrowing it. -/
theorem c1_manager_filter_not_narrowing :
    empB ∈ employeeGetAll stateOne ⟨1, .MANAGER⟩ .ALL (some 3) none ∧
    employeeInScope ⟨1, .MANAGER⟩ empB = false :=
  ⟨by decide, rfl⟩

/-- Claim C1 amended: when a MANAGER supplies an explicit `managerId` filter
(and no department filter), the returned set is exactly the employees whose
`managerId` equals the filter value, intersected with the status filter — the
filter replaces the caller's role scope and is not intersected with it. -/
theorem c1_manager_filter_replaces_scope (s : State) (caller : Caller)
    (st : StatusFilter) (m : Nat) (e : Employee) (hrole : caller.role = .MANAGER) :
    e ∈ employeeGetAll s caller st (some m) none ↔
      e ∈ s.employees ∧ statusMatches st e = true ∧ e.managerId = some m := by
  unfold employeeGetAll
  rw [hrole]
  simp [List.mem_filter, matchesWhere, statusMatch_eq, and_assoc]

/-- Witness for `c1_manager_filter_replaces_scope` at the concrete test data. -/
theorem c1_manager_filter_replaces_scope_witness :
    empB ∈ employeeGetAll stateOne ⟨1, .MANAGER⟩ .ALL (some 3) none ↔
      empB ∈ stateOne.employees ∧ statusMatches .ALL empB = true ∧ empB.managerId = some 3 :=
  c1_manager_filter_replaces_scope stateOne ⟨1, .MANAGER⟩ .ALL 3 empB rfl

/-- Claim C2 amended: `employee.getById` implements the claimed trichotomy —
`NotFound` when the id resolves to no record, `Forbidden` when the record is
outside the caller's visibility scope, the record otherwise — but
`department.getById` checks only existence and returns any existing
department to any authenticated caller, with no `Forbidden` outcome. -/
theorem c2_read_by_id_visibility (s : State) (caller : Caller) (i : Nat) :
    employeeGetById s caller i =
      (match s.employees.find? (fun e => e.id == i) with
       | none => .error .NotFound
       | some e => if employeeInScope caller e then .ok e else .error .Forbidden) ∧
    departmentGetById s caller i =
      (match s.departments.find? (fun d => d.id == i) with
       | none => .error .NotFound
       | some d => .ok d) := by
  constructor
  · unfold employeeGetById
    cases h : s.employees.find? (fun e => e.id == i) with
    | none => rfl
    | some e =>
      cases hr : caller.role <;>
        simp only [employeeInScope, hr] <;>
        split_ifs <;> simp_all [beq_iff_eq] <;> tauto
  · unfold departmentGetById
    cases h : s.departments.find? (fun d => d.id == i) <;> rfl

/-- Claim C2 is false on the code for departments: employee 1 is neither a
member nor the manager of Engineering (outside the visibility scope), yet
`department.getById` returns the department rather than `Forbidden`. -/
theorem c2_department_no_forbidden :
    departmentInScope stateOne ⟨1, .EMPLOYEE⟩ deptEng = false ∧
    departmentGetById stateOne ⟨1, .EMPLOYEE⟩ 10 = .ok deptEng :=
  ⟨rfl, by decide⟩

/-- Claim C3: a MANAGER caller who supplies a `departmentId` filter and no
`managerId` filter receives exactly the employees who are members of that
department or are its manager (intersected with the status filter) — the
caller's own role scope places no restriction on the result. -/
theorem c3_manager_department_filter (s : State) (caller : Caller) (st : StatusFilter)
    (dId : Nat) (e : Employee) (hrole : caller.role = .MANAGER) :
    e ∈ employeeGetAll s caller st none (some dId) ↔
      e ∈ s.employees ∧ statusMatches st e = true ∧
        (inDepartment s dId e = true ∨ managesDepartment s dId e = true) := by
  unfold employeeGetAll
  rw [hrole]
  simp [List.mem_filter, matchesWhere, statusMatch_eq, evalOrCond, and_assoc]

/-- Witness for `c3_manager_department_filter`: Bob — a member of Engineering
who is neither manager 1 itself nor one of its reports — is returned to the
MANAGER caller 1 filtering on department 10. -/
theorem c3_manager_department_filter_witness :
    empB ∈ employeeGetAll stateOne ⟨1, .MANAGER⟩ .ALL none (some 10) ↔
      empB ∈ stateOne.employees ∧ statusMatches .ALL empB = true ∧
        (inDepartment stateOne 10 empB = true ∨ managesDepartment stateOne 10 empB = true) :=
  c3_manager_department_filter stateOne ⟨1, .MANAGER⟩ .ALL 10 empB rfl

/-- Claim C8: `department.create`, `department.update`,
`department.toggleStatus` and `employee.toggleStatus` return `Forbidden`
and leave the state unchanged for every non-ADMIN caller, and never return
`Forbidden` for an ADMIN caller. -/
theorem c8_admin_only_mutations (s : State) (caller : Caller)
    (iDc : DepartmentCreateInput) (iDu : DepartmentUpdateInput)
    (dId eId : Nat) (dSt eSt : Status) :
    (caller.role ≠ .ADMIN →
      departmentCreate s caller iDc = (.error .Forbidden, s) ∧
      departmentUpdate s caller iDu = (.error .Forbidden, s) ∧
      departmentToggleStatus s caller dId dSt = (.error .Forbidden, s) ∧
      employeeToggleStatus s caller eId eSt = (.error .Forbidden, s)) ∧
    (caller.role = .ADMIN →
      (departmentCreate s caller iDc).fst ≠ .error .Forbidden ∧
      (departmentUpdate s caller iDu).fst ≠ .error .Forbidden ∧
      (departmentToggleStatus s caller dId dSt).fst ≠ .error .Forbidden ∧
      (employeeToggleStatus s caller eId eSt).fst ≠ .error .Forbidden) := by
  constructor
  · intro h
    refine ⟨?_, ?_, ?_, ?_⟩ <;>
      simp [departmentCreate, departmentUpdate, departmentToggleStatus, employeeToggleStatus, h]
  · intro h
    refine ⟨?_, ?_, ?_, ?_⟩ <;>
      [ (unfold departmentCreate); (unfold departmentUpdate);
        (unfold departmentToggleStatus); (unfold employeeToggleStatus)] <;>
      rw [h, if_neg (fun hc => hc rfl)] <;>
      (repeat' split) <;> simp

/-- Witness for `c8_admin_only_mutations`: the MANAGER caller 1 is denied each
of the four operations with the state unchanged, and the ADMIN caller is not
denied department creation. -/
theorem c8_admin_only_mutations_witness :
    (departmentCreate stateOne ⟨1, .MANAGER⟩ ⟨"Sales", 2, .ACTIVE⟩ =
      (.error .Forbidden, stateOne)) ∧
    (departmentCreate stateOne ⟨9, .ADMIN⟩ ⟨"Sales", 2, .ACTIVE⟩).fst ≠ .error .Forbidden :=
  ⟨(c8_admin_only_mutations stateOne ⟨1, .MANAGER⟩ ⟨"Sales", 2, .ACTIVE⟩
      ⟨10, "Engineering", 2, none⟩ 10 1 .ACTIVE .ACTIVE).1 (by decide) |>.1,
   (c8_admin_only_mutations stateOne ⟨9, .ADMIN⟩ ⟨"Sales", 2, .ACTIVE⟩
      ⟨10, "Engineering", 2, none⟩ 10 1 .ACTIVE .ACTIVE).2 rfl |>.1⟩

/-- Finding in a mapped list, when the map preserves the predicate, is the
map of the find. -/
theorem find?_map_pres {α : Type} (g : α → α) (p : α → Bool)
    (hp : ∀ a, p (g a) = p a) (l : List α) :
    (l.map g).find? p = (l.find? p).map g := by
  induction l with
  | nil => rfl
  | cons a t ih =>
    cases hpa : p a with
    | true =>
      rw [List.map_cons, List.find?_cons_of_pos _ (by rw [hp a, hpa]),
        List.find?_cons_of_pos _ hpa, Option.map_some']
    | false =>
      rw [List.map_cons, List.find?_cons_of_neg _ (by rw [hp a, hpa]; simp),
        List.find?_cons_of_neg _ (by rw [hpa]; simp), ih]

/-- In a list whose `f`-projections are pairwise distinct, searching for the
projection of a member finds exactly that member. -/
theorem find?_proj_of_mem {α : Type} (f : α → Nat) (l : List α)
    (hnodup : (l.map f).Nodup) (a : α) (ha : a ∈ l) :
    l.find? (fun x => f x == f a) = some a := by
  induction l with
  | nil => cases ha
  | cons b t ih =>
    rw [List.map_cons, List.nodup_cons] at hnodup
    rcases List.mem_cons.mp ha with rfl | hat
    · exact List.find?_cons_of_pos _ (by simp)
    · have hne : f b ≠ f a := fun he =>
        hnodup.1 (he ▸ List.mem_map_of_mem f hat)
      rw [List.find?_cons_of_neg _ (by simp [hne])]
      exact ih hnodup.2 hat

/-- Effect of `setUserRole` on a role lookup: the looked-up user keeps its
role unless it is the targeted user. -/
theorem userRoleById_setUserRole (s : State) (uid : Nat) (r : Role) (x : Nat) :
    userRoleById (setUserRole s uid r) x =
      (s.users.find? (fun u => u.id == x)).map (fun u => if u.id == uid then r else u.role) := by
  unfold userRoleById setUserRole
  rw [show ({ s with users := s.users.map (fun u => if u.id == uid then { u with role := r } else u) } : State).users
      = s.users.map (fun u => if u.id == uid then { u with role := r } else u) from rfl]
  rw [find?_map_pres _ _ (fun u => by by_cases h : (u.id == uid) = true <;> simp [h])]
  cases s.users.find? (fun u => u.id == x) with
  | none => rfl
  | some u => by_cases h : u.id = uid <;> simp [h]

/-- Finding by linked employee id commutes with `setUserRole`. -/
theorem find?_employeeId_setUserRole (s : State) (uid : Nat) (r : Role) (m : Nat) :
    (setUserRole s uid r).users.find? (fun u => u.employeeId == some m) =
      (s.users.find? (fun u => u.employeeId == some m)).map
        (fun u => if u.id == uid then { u with role := r } else u) := by
  unfold setUserRole
  exact find?_map_pres _ _ (fun u => by by_cases h : (u.id == uid) = true <;> simp [h]) _

/-- Effect of the promotion block on the linked user's role: `EMPLOYEE`
becomes `MANAGER`, any other role is kept. -/
theorem userRoleById_promoteIfEmployee (s : State) (m : Nat) (u : User)
    (hnodup : (s.users.map (fun x => x.id)).Nodup)
    (hu : s.users.find? (fun x => x.employeeId == some m) = some u) :
    userRoleById (promoteIfEmployee s m) u.id =
      some (if u.role = .EMPLOYEE then .MANAGER else u.role) := by
  have hmem : u ∈ s.users := List.mem_of_find?_eq_some hu
  have hfid : s.users.find? (fun x => x.id == u.id) = some u :=
    find?_proj_of_mem (fun x => x.id) s.users hnodup u hmem
  unfold promoteIfEmployee
  rw [hu]
  dsimp only
  by_cases hr : u.role = .EMPLOYEE
  · rw [if_pos hr, if_pos hr, userRoleById_setUserRole, hfid]
    simp
  · rw [if_neg hr, if_neg hr]
    unfold userRoleById
    rw [hfid]
    rfl

/-- Claim C5: a successful `department.create` with manager M promotes the
User linked to M from `EMPLOYEE` to `MANAGER` (and otherwise keeps the role),
so that user's role is `MANAGER` or `ADMIN` afterwards. -/
theorem c5_department_create_promotes (s : State) (caller : Caller)
    (input : DepartmentCreateInput)
    (hnodup : (s.users.map (fun x => x.id)).Nodup)
    (hrole : caller.role = .ADMIN)
    (hok : (departmentCreate s caller input).fst.isOk = true)
    (u : User)
    (hu : s.users.find? (fun x => x.employeeId == some input.managerId) = some u) :
    userRoleById (departmentCreate s caller input).snd u.id =
      some (if u.role = .EMPLOYEE then .MANAGER else u.role) ∧
    (userRoleById (departmentCreate s caller input).snd u.id = some .MANAGER ∨
     userRoleById (departmentCreate s caller input).snd u.id = some .ADMIN) := by
  have hconflict : ¬((s.departments.any fun d => d.name == input.name) = true) := by
    intro hc
    rw [departmentCreate, if_neg (fun hne => hne hrole), if_pos hc] at hok
    simp [Except.isOk, Except.toBool] at hok
  have hs' : (departmentCreate s caller input).snd =
      promoteIfEmployee
        { s with departments := s.departments ++
            [{ id := freshDepartmentId s, name := input.name,
               status := input.status, managerId := input.managerId }] }
        input.managerId := by
    rw [departmentCreate, if_neg (fun hne => hne hrole), if_neg hconflict]
  have hmain :
      userRoleById (departmentCreate s caller input).snd u.id =
        some (if u.role = .EMPLOYEE then .MANAGER else u.role) := by
    rw [hs']
    exact userRoleById_promoteIfEmployee _ input.managerId u hnodup hu
  refine ⟨hmain, ?_⟩
  rw [hmain]
  cases hru : u.role <;> simp [hru]

/-- Witness for `c5_department_create_promotes`: creating Sales managed by
Bob (whose user 101 is an `EMPLOYEE`) promotes user 101 to `MANAGER`. -/
theorem c5_department_create_promotes_witness :
    userRoleById (departmentCreate stateOne ⟨9, .ADMIN⟩ ⟨"Sales", 2, .ACTIVE⟩).snd userB.id =
      some (if userB.role = .EMPLOYEE then .MANAGER else userB.role) ∧
    (userRoleById (departmentCreate stateOne ⟨9, .ADMIN⟩ ⟨"Sales", 2, .ACTIVE⟩).snd userB.id =
        some .MANAGER ∨
     userRoleById (departmentCreate stateOne ⟨9, .ADMIN⟩ ⟨"Sales", 2, .ACTIVE⟩).snd userB.id =
        some .ADMIN) :=
  c5_department_create_promotes stateOne ⟨9, .ADMIN⟩ ⟨"Sales", 2, .ACTIVE⟩
    (by decide) rfl (by decide) userB (by decide)

/-- Claim C6 is false on the code for `employee.update`: with Alice's new
email colliding with the seeded admin's `User.email`, the operation fails
with `Conflict` after the Employee-row write, and that write persists (the
stored email is already the new one and the state differs from the initial
one) — the two writes are not in one transaction. -/
theorem c6_update_not_atomic :
    (employeeUpdate stateTwo ⟨9, .ADMIN⟩ updInputC6).fst = .error .Conflict ∧
    (employeeUpdate stateTwo ⟨9, .ADMIN⟩ updInputC6).snd.employees.map (·.emailAddress) =
      ["new@example.com"] ∧
    (employeeUpdate stateTwo ⟨9, .ADMIN⟩ updInputC6).snd ≠ stateTwo := by
  refine ⟨by decide, by decide, by decide⟩

/-- Claim C6 amended: the operations that the source wraps in a
`$transaction` — `employee.create`, `department.create` and
`department.update` — are atomic: whenever they return an error, the state is
exactly the initial one (no partial write persists).  `employee.update` is
excluded: its two writes are not wrapped in a transaction. -/
theorem c6_transactional_ops_atomic (s : State) (c : Caller)
    (iE : EmployeeCreateInput) (iDc : DepartmentCreateInput) (iDu : DepartmentUpdateInput) :
    ((employeeCreate s c iE).fst.isOk = false → (employeeCreate s c iE).snd = s) ∧
    ((departmentCreate s c iDc).fst.isOk = false → (departmentCreate s c iDc).snd = s) ∧
    ((departmentUpdate s c iDu).fst.isOk = false → (departmentUpdate s c iDu).snd = s) := by
  refine ⟨?_, ?_, ?_⟩ <;>
    [ (unfold employeeCreate); (unfold departmentCreate); (unfold departmentUpdate)] <;>
    (repeat' split) <;> simp [Except.isOk, Except.toBool]

/-- Witness for `c6_transactional_ops_atomic`: a duplicate-email
`employee.create` and two non-admin department mutations all fail and leave
the state untouched. -/
theorem c6_transactional_ops_atomic_witness :
    (employeeCreate stateOne ⟨9, .ADMIN⟩ ⟨"Al", "S", "1", "alice@example.com", none, .ACTIVE⟩).snd
      = stateOne ∧
    (departmentCreate stateOne ⟨1, .EMPLOYEE⟩ ⟨"Sales", 2, .ACTIVE⟩).snd = stateOne ∧
    (departmentUpdate stateOne ⟨1, .EMPLOYEE⟩ ⟨10, "Engineering", 2, none⟩).snd = stateOne :=
  ⟨(c6_transactional_ops_atomic stateOne ⟨9, .ADMIN⟩
      ⟨"Al", "S", "1", "alice@example.com", none, .ACTIVE⟩ ⟨"Sales", 2, .ACTIVE⟩
      ⟨10, "Engineering", 2, none⟩).1 (by decide),
   (c6_transactional_ops_atomic stateOne ⟨1, .EMPLOYEE⟩
      ⟨"Al", "S", "1", "alice@example.com", none, .ACTIVE⟩ ⟨"Sales", 2, .ACTIVE⟩
      ⟨10, "Engineering", 2, none⟩).2.1 (by decide),
   (c6_transactional_ops_atomic stateOne ⟨1, .EMPLOYEE⟩
      ⟨"Al", "S", "1", "alice@example.com", none, .ACTIVE⟩ ⟨"Sales", 2, .ACTIVE⟩
      ⟨10, "Engineering", 2, none⟩).2.2 (by decide)⟩

/-- Claim C7: an authorized non-ADMIN `employee.update` (self-edit, or a
MANAGER editing a direct report) succeeds — absent email conflicts — and
applies exactly the four basic fields: the stored row and the returned record
keep the pre-call `managerId` and `status`, whatever the request supplied for
them, and no error arises from those two fields. -/
theorem c7_nonadmin_update_ignores_admin_fields
    (s : State) (caller : Caller) (input : EmployeeUpdateInput)
    (employee : Employee)
    (hfound : s.employees.find? (fun e => e.id == input.id) = some employee)
    (hnotadmin : caller.role ≠ .ADMIN)
    (hauth : caller.employeeId = input.id ∨
      (caller.role = .MANAGER ∧ some caller.employeeId = employee.managerId))
    (hnoconflictE :
      (s.employees.any fun e => e.id != input.id && e.emailAddress == input.emailAddress) = false)
    (hnoconflictU : ∀ u, s.users.find? (fun x => x.employeeId == some input.id) = some u →
        (s.users.any fun x => x.id != u.id && x.email == input.emailAddress) = false) :
    (employeeUpdate s caller input).fst =
      .ok { employee with
              firstName := input.firstName
              lastName := input.lastName
              telephoneNumber := input.telephoneNumber
              emailAddress := input.emailAddress } ∧
    (employeeUpdate s caller input).snd.employees =
      s.employees.map (fun e =>
        if e.id == input.id then
          { employee with
              firstName := input.firstName
              lastName := input.lastName
              telephoneNumber := input.telephoneNumber
              emailAddress := input.emailAddress }
        else e) := by
  cases hu : s.users.find? (fun x => x.employeeId == some input.id) with
  | none =>
    rcases hauth with h | ⟨hm, he⟩
    · constructor <;> simp [employeeUpdate, hfound, hu, hnoconflictE, hnotadmin, h]
    · constructor <;> simp [employeeUpdate, hfound, hu, hnoconflictE, hnotadmin, hm, ← he]
  | some user =>
    have hcu := hnoconflictU user hu
    rcases hauth with h | ⟨hm, he⟩
    · constructor <;> simp [employeeUpdate, hfound, hu, hnoconflictE, hcu, hnotadmin, h]
    · constructor <;> simp [employeeUpdate, hfound, hu, hnoconflictE, hcu, hnotadmin, hm, ← he]

/-- Witness for `c7_nonadmin_update_ignores_admin_fields`: Carol (manager of
Bob) updates Bob supplying a new manager and INACTIVE status; the update
succeeds and Bob keeps manager 3 and ACTIVE status. -/
theorem c7_nonadmin_update_ignores_admin_fields_witness :
    (employeeUpdate stateOne ⟨3, .MANAGER⟩
        ⟨2, "Bobby", "Jones", "222", "bobby@example.com", some (some 1), some .INACTIVE⟩).fst =
      .ok { empB with
              firstName := "Bobby"
              lastName := "Jones"
              telephoneNumber := "222"
              emailAddress := "bobby@example.com" } ∧
    (employeeUpdate stateOne ⟨3, .MANAGER⟩
        ⟨2, "Bobby", "Jones", "222", "bobby@example.com", some (some 1), some .INACTIVE⟩).snd.employees =
      stateOne.employees.map (fun e =>
        if e.id == 2 then
          { empB with
              firstName := "Bobby"
              lastName := "Jones"
              telephoneNumber := "222"
              emailAddress := "bobby@example.com" }
        else e) :=
  c7_nonadmin_update_ignores_admin_fields stateOne ⟨3, .MANAGER⟩
    ⟨2, "Bobby", "Jones", "222", "bobby@example.com", some (some 1), some .INACTIVE⟩
    empB (by decide) (by decide) (Or.inr ⟨rfl, by decide⟩) (by decide)
    (fun u hu => by
      rw [show stateOne.users.find? (fun x => x.employeeId == some (2 : Nat)) = some userB
        from by decide] at hu
      cases hu
      decide)

/-- The identity relation preserves admin rows. -/
theorem adminsPreserved_refl (l : List User) : adminsPreserved l l :=
  ⟨fun u hu h => ⟨u, hu, rfl, h⟩, fun u hu h => ⟨u, hu, rfl, h⟩⟩

/-- Preservation of admin rows composes. -/
theorem adminsPreserved_trans {a b c : List User}
    (hab : adminsPreserved a b) (hbc : adminsPreserved b c) : adminsPreserved a c := by
  obtain ⟨h1, h2⟩ := hab
  obtain ⟨h3, h4⟩ := hbc
  constructor
  · intro u hu hr
    obtain ⟨v, hv, hid, hrole⟩ := h1 u hu hr
    obtain ⟨w, hw, hid2, hrole2⟩ := h3 v hv hrole
    exact ⟨w, hw, hid2.trans hid, hrole2⟩
  · intro w hw hr
    obtain ⟨v, hv, hid, hrole⟩ := h4 w hw hr
    obtain ⟨u, hu, hid2, hrole2⟩ := h2 v hv hrole
    exact ⟨u, hu, hid2.trans hid, hrole2⟩

/-- Setting a non-ADMIN role on a user that is currently not an ADMIN
preserves the admin rows. -/
theorem adminsPreserved_setRoleMap (l : List User) (uid : Nat) (r : Role)
    (hr : r ≠ .ADMIN)
    (hguard : ∀ u ∈ l, u.id = uid → u.role ≠ .ADMIN) :
    adminsPreserved l (l.map (fun u => if u.id == uid then { u with role := r } else u)) := by
  constructor
  · intro u hu hrole
    refine ⟨(fun u => if u.id == uid then { u with role := r } else u) u,
      List.mem_map_of_mem _ hu, ?_, ?_⟩
    · by_cases h : u.id = uid <;> simp [h]
    · have hne : ¬(u.id = uid) := fun h => hguard u hu h hrole
      simp [hne, hrole]
  · intro u' hu' hrole
    obtain ⟨u, hu, rfl⟩ := List.mem_map.mp hu'
    refine ⟨u, hu, ?_, ?_⟩
    · by_cases h : u.id = uid <;> simp [h]
    · by_cases h : u.id = uid
      · exact absurd (by simpa [h] using hrole) hr
      · simpa [h] using hrole

/-- The role-setting map keeps the list of user ids unchanged. -/
theorem map_id_setRoleMap (l : List User) (uid : Nat) (r : Role) :
    (l.map (fun u => if u.id == uid then { u with role := r } else u)).map (fun x => x.id) =
      l.map (fun x => x.id) := by
  rw [List.map_map]
  apply List.map_congr_left
  intro u _
  by_cases h : u.id = uid <;> simp [h]

/-- The promotion block preserves admin rows: it only ever turns an
`EMPLOYEE` into a `MANAGER`. -/
theorem adminsPreserved_promoteIfEmployee (s : State) (m : Nat)
    (hnodup : (s.users.map (fun x => x.id)).Nodup) :
    adminsPreserved s.users (promoteIfEmployee s m).users := by
  unfold promoteIfEmployee
  cases hu : s.users.find? (fun x => x.employeeId == some m) with
  | none => exact adminsPreserved_refl _
  | some u =>
    dsimp only
    by_cases hrr : u.role = .EMPLOYEE
    · rw [if_pos hrr]
      apply adminsPreserved_setRoleMap _ _ _ (by simp)
      intro v hv hid
      have : v = u :=
        List.inj_on_of_nodup_map hnodup hv (List.mem_of_find?_eq_some hu) hid
      rw [this, hrr]
      simp
    · rw [if_neg hrr]
      exact adminsPreserved_refl _

/-- The demotion block preserves admin rows: it only ever turns a `MANAGER`
into an `EMPLOYEE`. -/
theorem adminsPreserved_demoteOldManagerIfIdle (s : State) (m dId : Nat)
    (hnodup : (s.users.map (fun x => x.id)).Nodup) :
    adminsPreserved s.users (demoteOldManagerIfIdle s m dId).users := by
  unfold demoteOldManagerIfIdle
  dsimp only
  split
  · cases hu : s.users.find? (fun x => x.employeeId == some m) with
    | none => exact adminsPreserved_refl _
    | some u =>
      dsimp only
      by_cases hrr : u.role = .MANAGER
      · rw [if_pos hrr]
        apply adminsPreserved_setRoleMap _ _ _ (by simp)
        intro v hv hid
        have : v = u :=
          List.inj_on_of_nodup_map hnodup hv (List.mem_of_find?_eq_some hu) hid
        rw [this, hrr]
        simp
      · rw [if_neg hrr]
        exact adminsPreserved_refl _
  · exact adminsPreserved_refl _

/-- The user-id list after the promotion block is the original one. -/
theorem usersIds_promoteIfEmployee (s : State) (m : Nat) :
    (promoteIfEmployee s m).users.map (fun x => x.id) = s.users.map (fun x => x.id) := by
  unfold promoteIfEmployee
  cases hu : s.users.find? (fun x => x.employeeId == some m) with
  | none => rfl
  | some u =>
    dsimp only
    by_cases hrr : u.role = .EMPLOYEE
    · rw [if_pos hrr]
      exact map_id_setRoleMap _ _ _
    · rw [if_neg hrr]

/-- Wrapper of `adminsPreserved_promoteIfEmployee` keyed on an explicit user
list, to apply at states whose user table is definitionally another state's. -/
theorem adminsPreserved_promote_of_eq (s0 : State) (l : List User)
    (hl : s0.users = l) (m : Nat) (hnodup : (l.map (fun x => x.id)).Nodup) :
    adminsPreserved l (promoteIfEmployee s0 m).users := by
  subst hl
  exact adminsPreserved_promoteIfEmployee s0 m hnodup

/-- The promotion block followed by the demotion block preserves admin rows. -/
theorem adminsPreserved_promote_then_demote (s0 : State) (l : List User)
    (hl : s0.users = l) (mNew mOld dId : Nat)
    (hnodup : (l.map (fun x => x.id)).Nodup) :
    adminsPreserved l
      (demoteOldManagerIfIdle (promoteIfEmployee s0 mNew) mOld dId).users := by
  subst hl
  exact adminsPreserved_trans (adminsPreserved_promoteIfEmployee s0 mNew hnodup)
    (adminsPreserved_demoteOldManagerIfIdle _ mOld dId
      (by rw [usersIds_promoteIfEmployee]; exact hnodup))

/-- Shape of the promotion block when the linked user is found. -/
theorem promoteIfEmployee_eq (s0 : State) (m : Nat) (u : User)
    (hu : s0.users.find? (fun x => x.employeeId == some m) = some u) :
    promoteIfEmployee s0 m =
      if u.role = .EMPLOYEE then setUserRole s0 u.id .MANAGER else s0 := by
  unfold promoteIfEmployee
  rw [hu]

/-- Shape of the promotion block when no linked user exists. -/
theorem promoteIfEmployee_eq_none (s0 : State) (m : Nat)
    (hu : s0.users.find? (fun x => x.employeeId == some m) = none) :
    promoteIfEmployee s0 m = s0 := by
  unfold promoteIfEmployee
  rw [hu]

/-- Shape of the demotion block, keyed on the two management-graph checks. -/
theorem demoteOldManagerIfIdle_eq (s0 : State) (m dId : Nat) :
    demoteOldManagerIfIdle s0 m dId =
      if stillManagingAfter s0 m dId = false ∧ hasSubordinatesIn s0 m = false then
        match s0.users.find? (fun x => x.employeeId == some m) with
        | some u => if u.role = .MANAGER then setUserRole s0 u.id .EMPLOYEE else s0
        | none => s0
      else s0 := by
  unfold demoteOldManagerIfIdle stillManagingAfter hasSubordinatesIn
  by_cases h1 : (s0.departments.any fun d => d.managerId == m && d.id != dId) = true <;>
    by_cases h2 : (s0.employees.any fun e => e.managerId == some m) = true <;>
      simp [h1, h2]

/-- The demotion block never changes the department table. -/
theorem demote_departments (s0 : State) (m dId : Nat) :
    (demoteOldManagerIfIdle s0 m dId).departments = s0.departments := by
  rw [demoteOldManagerIfIdle_eq]
  split
  · split
    · split <;> rfl
    · rfl
  · rfl

/-- The demotion block never changes the employee table. -/
theorem demote_employees (s0 : State) (m dId : Nat) :
    (demoteOldManagerIfIdle s0 m dId).employees = s0.employees := by
  rw [demoteOldManagerIfIdle_eq]
  split
  · split
    · split <;> rfl
    · rfl
  · rfl

/-- The `stillManaging` check is insensitive to a preceding demotion. -/
theorem stillManagingAfter_demote (s0 : State) (m' dId' m dId : Nat) :
    stillManagingAfter (demoteOldManagerIfIdle s0 m' dId') m dId =
      stillManagingAfter s0 m dId := by
  unfold stillManagingAfter
  rw [demote_departments]

/-- The `hasSubordinates` check is insensitive to a preceding demotion. -/
theorem hasSubordinatesIn_demote (s0 : State) (m' dId' m : Nat) :
    hasSubordinatesIn (demoteOldManagerIfIdle s0 m' dId') m =
      hasSubordinatesIn s0 m := by
  unfold hasSubordinatesIn
  rw [demote_employees]

/-- Finding by id commutes with `setUserRole`. -/
theorem find?_id_setUserRole (s0 : State) (uid : Nat) (r : Role) (x : Nat) :
    (setUserRole s0 uid r).users.find? (fun u => u.id == x) =
      (s0.users.find? (fun u => u.id == x)).map
        (fun u => if u.id == uid then { u with role := r } else u) := by
  unfold setUserRole
  exact find?_map_pres _ _ (fun u => by by_cases h : u.id = uid <;> simp [h]) _

/-- A direct role lookup from a find-by-id fact. -/
theorem userRoleById_eq_of_find (s0 : State) (u : User)
    (hfid : s0.users.find? (fun x => x.id == u.id) = some u) :
    userRoleById s0 u.id = some u.role := by
  unfold userRoleById
  rw [hfid]
  rfl

/-- Every member of the promotion block's user table comes from a pre-state
user with the same id and the same employee link. -/
theorem exists_pre_of_mem_promote (s0 : State) (m : Nat) (v : User)
    (hv : v ∈ (promoteIfEmployee s0 m).users) :
    ∃ w ∈ s0.users, w.id = v.id ∧ w.employeeId = v.employeeId := by
  unfold promoteIfEmployee at hv
  cases hu : s0.users.find? (fun x => x.employeeId == some m) with
  | none =>
    rw [hu] at hv
    exact ⟨v, hv, rfl, rfl⟩
  | some u =>
    rw [hu] at hv
    dsimp only at hv
    by_cases hr : u.role = .EMPLOYEE
    · rw [if_pos hr] at hv
      obtain ⟨w, hw, rfl⟩ := List.mem_map.mp hv
      refine ⟨w, hw, ?_, ?_⟩ <;> by_cases h : w.id = u.id <;> simp [h]
    · rw [if_neg hr] at hv
      exact ⟨v, hv, rfl, rfl⟩

/-- The demotion block leaves untouched the role of any user other than the
one linked to the demoted manager. -/
theorem userRoleById_demote_other (s0 : State) (m dId x : Nat)
    (hx : ∀ u, s0.users.find? (fun v => v.employeeId == some m) = some u → u.id ≠ x) :
    userRoleById (demoteOldManagerIfIdle s0 m dId) x = userRoleById s0 x := by
  rw [demoteOldManagerIfIdle_eq]
  by_cases hcond : stillManagingAfter s0 m dId = false ∧ hasSubordinatesIn s0 m = false
  · rw [if_pos hcond]
    cases hu : s0.users.find? (fun v => v.employeeId == some m) with
    | none => rfl
    | some u =>
      dsimp only
      by_cases hrm : u.role = .MANAGER
      · rw [if_pos hrm, userRoleById_setUserRole]
        have hne : u.id ≠ x := hx u hu
        unfold userRoleById
        cases hfx : s0.users.find? (fun v => v.id == x) with
        | none => rfl
        | some w =>
          have hwid : w.id = x := by simpa using List.find?_some hfx
          have hwne : ¬(w.id = u.id) := by
            rw [hwid]
            exact fun h => hne h.symm
          simp [hwne]
      · rw [if_neg hrm]
  · rw [if_neg hcond]

/-- Effect of the demotion block on the linked user's role: demoted to
`EMPLOYEE` exactly when both management-graph checks are clear and the
current role is `MANAGER`. -/
theorem userRoleById_demote_target (s0 : State) (m dId : Nat) (u : User)
    (hnodup : (s0.users.map (fun x => x.id)).Nodup)
    (hu : s0.users.find? (fun x => x.employeeId == some m) = some u) :
    userRoleById (demoteOldManagerIfIdle s0 m dId) u.id =
      some (if stillManagingAfter s0 m dId = false ∧ hasSubordinatesIn s0 m = false ∧
              u.role = .MANAGER then .EMPLOYEE else u.role) := by
  have hmem : u ∈ s0.users := List.mem_of_find?_eq_some hu
  have hfid : s0.users.find? (fun x => x.id == u.id) = some u :=
    find?_proj_of_mem (fun x => x.id) s0.users hnodup u hmem
  rw [demoteOldManagerIfIdle_eq]
  by_cases hcond : stillManagingAfter s0 m dId = false ∧ hasSubordinatesIn s0 m = false
  · rw [if_pos hcond, hu]
    dsimp only
    by_cases hrm : u.role = .MANAGER
    · rw [if_pos hrm, userRoleById_setUserRole, hfid]
      simp [hcond.1, hcond.2, hrm]
    · rw [if_neg hrm, userRoleById_eq_of_find _ _ hfid]
      have hnc : ¬(stillManagingAfter s0 m dId = false ∧ hasSubordinatesIn s0 m = false ∧
          u.role = .MANAGER) := fun hh => hrm hh.2.2
      rw [if_neg hnc]
  · rw [if_neg hcond, userRoleById_eq_of_find _ _ hfid]
    have hnc : ¬(stillManagingAfter s0 m dId = false ∧ hasSubordinatesIn s0 m = false ∧
        u.role = .MANAGER) := fun hh => hcond ⟨hh.1, hh.2.1⟩
    rw [if_neg hnc]

/-- Role evolution of the two affected users through the role-transition
engine (promotion of the new manager's user, then conditional demotion of the
old manager's user), as run by `department.update` when the manager changed. -/
theorem userRoleById_roleEngine (s0 : State) (mNew mOld dId : Nat)
    (hnodup : (s0.users.map (fun x => x.id)).Nodup)
    (hne : mNew ≠ mOld) :
    (∀ u, s0.users.find? (fun x => x.employeeId == some mNew) = some u →
      userRoleById (demoteOldManagerIfIdle (promoteIfEmployee s0 mNew) mOld dId) u.id =
        some (if u.role = .EMPLOYEE then .MANAGER else u.role)) ∧
    (∀ u, s0.users.find? (fun x => x.employeeId == some mOld) = some u →
      userRoleById (demoteOldManagerIfIdle (promoteIfEmployee s0 mNew) mOld dId) u.id =
        some (if stillManagingAfter (promoteIfEmployee s0 mNew) mOld dId = false ∧
                hasSubordinatesIn (promoteIfEmployee s0 mNew) mOld = false ∧
                u.role = .MANAGER then .EMPLOYEE else u.role)) := by
  constructor
  · intro uN hN
    have hmemN : uN ∈ s0.users := List.mem_of_find?_eq_some hN
    have hpN : uN.employeeId = some mNew := by simpa using List.find?_some hN
    rw [userRoleById_demote_other]
    · exact userRoleById_promoteIfEmployee s0 mNew uN hnodup hN
    · intro v hv
      have hvp : v.employeeId = some mOld := by simpa using List.find?_some hv
      have hvm : v ∈ (promoteIfEmployee s0 mNew).users := List.mem_of_find?_eq_some hv
      obtain ⟨w, hw, hwid, hwemp⟩ := exists_pre_of_mem_promote s0 mNew v hvm
      intro hcontra
      have hweq : w = uN :=
        List.inj_on_of_nodup_map hnodup hw hmemN (hwid.trans hcontra)
      rw [hweq] at hwemp
      rw [hpN, hvp] at hwemp
      exact hne (Option.some.inj hwemp)
  · intro uO hO
    have hmemO : uO ∈ s0.users := List.mem_of_find?_eq_some hO
    have hpO : uO.employeeId = some mOld := by simpa using List.find?_some hO
    have hnodup2 : ((promoteIfEmployee s0 mNew).users.map (fun x => x.id)).Nodup := by
      rw [usersIds_promoteIfEmployee]
      exact hnodup
    have hfound2 : (promoteIfEmployee s0 mNew).users.find?
        (fun x => x.employeeId == some mOld) = some uO := by
      cases hN : s0.users.find? (fun x => x.employeeId == some mNew) with
      | none => rw [promoteIfEmployee_eq_none s0 mNew hN]; exact hO
      | some uN =>
        have hmemN : uN ∈ s0.users := List.mem_of_find?_eq_some hN
        have hpN : uN.employeeId = some mNew := by simpa using List.find?_some hN
        by_cases hr : uN.role = .EMPLOYEE
        · rw [promoteIfEmployee_eq s0 mNew uN hN, if_pos hr,
            find?_employeeId_setUserRole, hO]
          have hidne : ¬(uO.id = uN.id) := by
            intro h
            have : uO = uN := List.inj_on_of_nodup_map hnodup hmemO hmemN h
            rw [this, hpN] at hpO
            exact hne (Option.some.inj hpO)
          simp [hidne]
        · rw [promoteIfEmployee_eq s0 mNew uN hN, if_neg hr]
          exact hO
    exact userRoleById_demote_target (promoteIfEmployee s0 mNew) mOld dId uO hnodup2 hfound2

/-- Claim C4: when an ADMIN's `department.update` changes the manager from
M_old to M_new, the User linked to M_new ends with role `MANAGER` exactly
when it was `EMPLOYEE` (otherwise its role is kept), and the User linked to
M_old ends with role `EMPLOYEE` exactly when — in the post-update state —
M_old manages no other department, has no direct subordinate, and that User's
role is `MANAGER` (otherwise its role is kept); when the manager did not
change, no User row is modified at all. -/
theorem c4_department_update_role_transitions (s : State) (caller : Caller)
    (input : DepartmentUpdateInput)
    (hnodup : (s.users.map (fun x => x.id)).Nodup)
    (hrole : caller.role = .ADMIN)
    (currentDept : Department)
    (hfound : s.departments.find? (fun d => d.id == input.id) = some currentDept)
    (hok : (departmentUpdate s caller input).fst.isOk = true) :
    (currentDept.managerId ≠ input.managerId →
      (∀ u, s.users.find? (fun x => x.employeeId == some input.managerId) = some u →
        userRoleById (departmentUpdate s caller input).snd u.id =
          some (if u.role = .EMPLOYEE then .MANAGER else u.role)) ∧
      (∀ u, s.users.find? (fun x => x.employeeId == some currentDept.managerId) = some u →
        userRoleById (departmentUpdate s caller input).snd u.id =
          some (if stillManagingAfter (departmentUpdate s caller input).snd
                    currentDept.managerId input.id = false ∧
                  hasSubordinatesIn (departmentUpdate s caller input).snd
                    currentDept.managerId = false ∧
                  u.role = .MANAGER
                then .EMPLOYEE else u.role))) ∧
    (currentDept.managerId = input.managerId →
      (departmentUpdate s caller input).snd.users = s.users) := by
  have hconf : ¬((s.departments.any fun d => d.id != input.id && d.name == input.name) = true) := by
    intro hc
    rw [departmentUpdate, if_neg (fun hne => hne hrole), hfound] at hok
    dsimp only at hok
    rw [if_pos hc] at hok
    simp [Except.isOk, Except.toBool] at hok
  constructor
  · intro hchange
    constructor
    · intro u hu
      rw [departmentUpdate, if_neg (fun hne => hne hrole), hfound]
      dsimp only
      rw [if_neg hconf, if_pos hchange]
      dsimp only
      refine (userRoleById_roleEngine ?_ input.managerId currentDept.managerId
        input.id ?_ ?_).1 u ?_
      · exact hnodup
      · exact fun h => hchange h.symm
      · exact hu
    · intro u hu
      rw [departmentUpdate, if_neg (fun hne => hne hrole), hfound]
      dsimp only
      rw [if_neg hconf, if_pos hchange]
      dsimp only
      rw [stillManagingAfter_demote, hasSubordinatesIn_demote]
      refine (userRoleById_roleEngine ?_ input.managerId currentDept.managerId
        input.id ?_ ?_).2 u ?_
      · exact hnodup
      · exact fun h => hchange h.symm
      · exact hu
  · intro hsame
    rw [departmentUpdate, if_neg (fun hne => hne hrole), hfound]
    dsimp only
    rw [if_neg hconf, if_neg (fun hc => hc hsame)]

/-- Witness for `c4_department_update_role_transitions`: reassigning Ops from
Alice to Bob promotes Bob's user to `MANAGER` and demotes Alice's user (no
other department, no subordinate) to `EMPLOYEE`. -/
theorem c4_department_update_role_transitions_witness :
    userRoleById (departmentUpdate stateFour ⟨9, .ADMIN⟩ updInputC4).snd userB.id =
      some .MANAGER ∧
    userRoleById (departmentUpdate stateFour ⟨9, .ADMIN⟩ updInputC4).snd userA.id =
      some .EMPLOYEE := by
  have h := c4_department_update_role_transitions stateFour ⟨9, .ADMIN⟩ updInputC4
    (by decide) rfl deptOps (by decide) (by decide)
  constructor
  · have h1 := (h.1 (by decide)).1 userB (by decide)
    rw [h1]
    decide
  · have h2 := (h.1 (by decide)).2 userA (by decide)
    rw [h2]
    decide

/-- Claim C9: neither `department.create` nor `department.update` ever
changes a User whose role is `ADMIN`, and neither ever sets a User's role to
`ADMIN`: the post-state admin rows are exactly the pre-state admin rows. -/
theorem c9_admin_roles_untouched (s : State) (caller : Caller)
    (iDc : DepartmentCreateInput) (iDu : DepartmentUpdateInput)
    (hnodup : (s.users.map (fun x => x.id)).Nodup) :
    adminsPreserved s.users (departmentCreate s caller iDc).snd.users ∧
    adminsPreserved s.users (departmentUpdate s caller iDu).snd.users := by
  constructor
  · unfold departmentCreate
    split
    · exact adminsPreserved_refl _
    · split
      · exact adminsPreserved_refl _
      · dsimp only
        apply adminsPreserved_promote_of_eq
        · rfl
        · exact hnodup
  · unfold departmentUpdate
    split
    · exact adminsPreserved_refl _
    · split
      · exact adminsPreserved_refl _
      · split
        · exact adminsPreserved_refl _
        · dsimp only
          split
          · dsimp only
            apply adminsPreserved_promote_then_demote
            · rfl
            · exact hnodup
          · exact adminsPreserved_refl _

/-- Witness for `c9_admin_roles_untouched` on the concrete test database. -/
theorem c9_admin_roles_untouched_witness :
    adminsPreserved stateOne.users
      (departmentCreate stateOne ⟨9, .ADMIN⟩ ⟨"Sales", 2, .ACTIVE⟩).snd.users ∧
    adminsPreserved stateOne.users
      (departmentUpdate stateOne ⟨9, .ADMIN⟩ ⟨10, "Engineering", 2, none⟩).snd.users :=
  c9_admin_roles_untouched stateOne ⟨9, .ADMIN⟩ ⟨"Sales", 2, .ACTIVE⟩
    ⟨10, "Engineering", 2, none⟩ (by decide)

/-- Claim C10: a successful `employee.create` appends exactly one new User
row, whose role is `EMPLOYEE`, and leaves every pre-existing User row —
including its role — unchanged; no caller or supplied `managerId` changes
this. -/
theorem c10_employee_create_preserves_roles (s : State) (caller : Caller)
    (input : EmployeeCreateInput) (e : Employee)
    (hok : (employeeCreate s caller input).fst = .ok e) :
    ∃ newUser : User,
      (employeeCreate s caller input).snd.users = s.users ++ [newUser] ∧
      newUser.role = .EMPLOYEE := by
  by_cases h1 : (s.employees.any fun x => x.emailAddress == input.emailAddress) = true
  · simp [employeeCreate, h1] at hok
  · by_cases h2 : (s.users.any fun u => u.email == input.emailAddress) = true
    · simp [employeeCreate, h1, h2] at hok
    · exact ⟨{ id := freshUserId s, email := input.emailAddress,
               name := input.firstName ++ " " ++ input.lastName,
               role := .EMPLOYEE, employeeId := some (freshEmployeeId s) },
        by simp [employeeCreate, h1, h2], rfl⟩

/-- Witness for `c10_employee_create_preserves_roles`: creating Dave in the
test database appends one `EMPLOYEE`-roled user and keeps the others. -/
theorem c10_employee_create_preserves_roles_witness :
    ∃ newUser : User,
      (employeeCreate stateOne ⟨9, .ADMIN⟩
          ⟨"Dave", "Lee", "444", "dave@example.com", some 3, .ACTIVE⟩).snd.users =
        stateOne.users ++ [newUser] ∧
      newUser.role = .EMPLOYEE :=
  c10_employee_create_preserves_roles stateOne ⟨9, .ADMIN⟩
    ⟨"Dave", "Lee", "444", "dave@example.com", some 3, .ACTIVE⟩
    ⟨4, "Dave", "Lee", "444", "dave@example.com", .ACTIVE, some 3⟩ (by decide)

end HrAdmin
